import Mathlib

/- Verification of the agentsocial dispatch-and-track core.

A shallow embedding of the mention parser (`backend/agents.py`), the
in-memory data store (`backend/store.py`), the orchestrator
(`backend/orchestrator.py`), the audit recorder
(`backend/services/audit_service.py`) and the per-thread live-update
stream loop (`backend/main.py`), together with theorems settling the
specification claims about them.

Modelling conventions:
* `uuid.uuid4()` fresh-id generation is modelled by a counter `nextId`
  carried in the state; every id draw consumes the counter once, which
  models the freshness guarantee of uuid4.
* `datetime.now()` is modelled by a logical clock `clock` carried in the
  state.
* Python dicts keyed by id (`posts`, `agent_runs`, `_logs`) are modelled
  as insertion-ordered lists of records; ids are unique by construction
  of the counter, and `dict.values()` iteration order (insertion order
  in Python ≥ 3.7) is the list order.
-/

namespace AgentSocial

/-- The `AuthorType` enum from `backend/models.py`. -/
inductive AuthorType where
  | human
  | agent
deriving Repr, DecidableEq

/-- The `AgentStatus` enum from `backend/models.py`. -/
inductive AgentStatus where
  | queued
  | running
  | done
  | error
deriving Repr, DecidableEq

/-- The `AuditEventType` enum from `backend/models.py` (the members used by the
embedded operations). -/
inductive AuditEventType where
  | post_create
  | post_delete
  | agent_run_start
  | agent_run_complete
  | agent_run_error
deriving Repr, DecidableEq

/-- The `Agent` model from `backend/models.py`.  The fields `role`, `policy`,
`style`, `tools`, `color`, `icon`, `mock_responses` are never read by any
embedded operation and are omitted. -/
structure Agent where
  id : String
  handle : String
  name : String
deriving Repr, DecidableEq

/-- The `Post` model from `backend/models.py` (the `meta`, `like_count`,
`is_liked` bookkeeping fields are never read by the embedded operations and
are omitted). -/
structure Post where
  id : Nat
  author_type : AuthorType
  author_handle : String
  text : String
  created_at : Nat
  parent_id : Option Nat
  thread_id : Nat
  mentions : List String
deriving Repr, DecidableEq

/-- The `AgentRun` model from `backend/models.py` (`trace` is never read and is
omitted; `input_context` holds the `trigger_text` entry of the source's
dict). -/
structure AgentRun where
  id : Nat
  agent_handle : String
  thread_id : Nat
  trigger_post_id : Nat
  status : AgentStatus
  started_at : Nat
  ended_at : Option Nat
  input_context : String
  output_post_id : Option Nat
deriving Repr, DecidableEq

/-- The `AuditLog` model from `backend/models.py` (`session_id` is never read by
the embedded operations and is omitted; `details` is the source's details
dict rendered as one string field). -/
structure AuditLog where
  id : Nat
  timestamp : Nat
  event_type : AuditEventType
  user_id : Option String
  ip_address : Option String
  user_agent : Option String
  resource_type : Option String
  resource_id : Option Nat
  details : String
  status : String
  error_message : Option String
  thread_id : Option Nat
  post_id : Option Nat
  agent_run_id : Option Nat
deriving Repr, DecidableEq

/-- Combined in-memory state: the `DataStore` singleton of
`backend/store.py` (`posts`, `agent_runs`, `likes`) together with the
`AuditService` singleton's in-memory `_logs` cache of
`backend/services/audit_service.py`, plus the fresh-id counter and the
logical clock. -/
structure Sys where
  posts : List Post
  agentRuns : List AgentRun
  likes : List (Nat × List String)
  auditLogs : List AuditLog
  nextId : Nat
  clock : Nat
deriving Repr, DecidableEq

/-- The agent registry `AGENTS` of `backend/agents.py`: a dict keyed by the
bare (lowercase) handle. -/
def AGENTS : List (String × Agent) :=
  [ ("grok", ⟨"grok", "@grok", "Grok"⟩),
    ("factcheck", ⟨"factcheck", "@factcheck", "FactCheck"⟩),
    ("summarizer", ⟨"summarizer", "@summarizer", "TL;DR"⟩),
    ("writer", ⟨"writer", "@writer", "Writer"⟩),
    ("dev", ⟨"dev", "@dev", "Dev"⟩),
    ("analyst", ⟨"analyst", "@analyst", "Analyst"⟩),
    ("researcher", ⟨"researcher", "@researcher", "Researcher"⟩),
    ("coach", ⟨"coach", "@coach", "Coach"⟩) ]

/-- The `get_agent` from `backend/agents.py`: strip leading `@` characters
(`str.lstrip` removes every leading occurrence) and look the bare handle up
in the registry dict. -/
def get_agent (handle : String) : Option Agent :=
  let clean_handle := String.mk (handle.data.dropWhile (· = '@'))
  (AGENTS.lookup clean_handle).map id

/-- One character of the regex class `[a-zA-Z0-9_]` used by
`extract_mentions`. -/
def isWordChar (c : Char) : Bool :=
  (('a' ≤ c && c ≤ 'z') || ('A' ≤ c && c ≤ 'Z') || ('0' ≤ c && c ≤ '9') || c = '_')

/-- Fuelled worker for the regex scan; the fuel is an upper bound on the
number of characters still to be examined, so with fuel = length of the
input the scan is exhaustive. -/
def mentionTokensAux : Nat → List Char → List String
  | 0, _ => []
  | _ + 1, [] => []
  | fuel + 1, c :: rest =>
      if c = '@' then
        let tok := rest.takeWhile isWordChar
        if tok.isEmpty then mentionTokensAux fuel rest
        else String.mk tok :: mentionTokensAux fuel (rest.dropWhile isWordChar)
      else mentionTokensAux fuel rest

/-- The left-to-right, non-overlapping scan performed by
`re.findall(r'@([a-zA-Z0-9_]+)', text)` in `extract_mentions`
(`backend/agents.py`): at each `@` followed by at least one word character,
capture the maximal run of word characters and resume after it. -/
def mentionTokens (l : List Char) : List String :=
  mentionTokensAux l.length l

/-- The `extract_mentions` from `backend/agents.py`: the regex findall followed
by the filter keeping exactly the tokens that are keys of the `AGENTS`
dict (`m in AGENTS` is case-sensitive dict-key membership). -/
def extract_mentions (text : String) : List String :=
  (mentionTokens text.data).filter (fun m => (AGENTS.lookup m).isSome)

/-- Dict lookup `self.posts.get(pid)`. -/
def findPost (s : Sys) (pid : Nat) : Option Post :=
  s.posts.find? (fun p => decide (p.id = pid))

/-- Dict lookup `self.agent_runs.get(rid)` (also `DataStore.get_agent_run`). -/
def findRun (s : Sys) (rid : Nat) : Option AgentRun :=
  s.agentRuns.find? (fun r => decide (r.id = rid))

/-- The `AuditService.log_event_sync` from `backend/services/audit_service.py`
(the in-memory semantics shared by the `log_event`/`log_event_sync`
variants): create one `AuditLog` with a fresh id and the current time,
append it to the in-memory `_logs` index, and return it.  The best-effort
durable write is a no-op when no database service is configured, which is
the configuration of this core. -/
def log_event_sync (s : Sys) (event_type : AuditEventType)
    (user_id : Option String) (resource_type : Option String)
    (resource_id : Option Nat) (details : String) (status : String)
    (error_message : Option String)
    (thread_id post_id agent_run_id : Option Nat) : AuditLog × Sys :=
  let log : AuditLog :=
    { id := s.nextId, timestamp := s.clock, event_type := event_type,
      user_id := user_id, ip_address := none, user_agent := none,
      resource_type := resource_type, resource_id := resource_id,
      details := details, status := status, error_message := error_message,
      thread_id := thread_id, post_id := post_id,
      agent_run_id := agent_run_id }
  (log, { s with auditLogs := s.auditLogs ++ [log], nextId := s.nextId + 1 })

/-- The `AuditService.log_post_create`: one `POST_CREATE` entry (the `details`
dict holds the text truncated to 200 characters). -/
def log_post_create (s : Sys) (post_id : Nat) (user_id : String)
    (text : String) (thread_id : Nat) : AuditLog × Sys :=
  log_event_sync s .post_create (some user_id) (some "post") (some post_id)
    (String.mk (text.data.take 200)) "success" none (some thread_id)
    (some post_id) none

/-- The `AuditService.log_agent_run`: one entry per call, `AGENT_RUN_START`
when the reported status is `"running"`, else `AGENT_RUN_ERROR` when it is
`"failed"` and `AGENT_RUN_COMPLETE` otherwise.  (No code path in the
repository ever calls this function.) -/
def log_agent_run (s : Sys) (agent_run_id : Nat) (agent_handle : String)
    (thread_id : Nat) (status : String)
    (error_message : Option String) : AuditLog × Sys :=
  if status = "running" then
    log_event_sync s .agent_run_start none (some "agent_run")
      (some agent_run_id) ("agent_handle=" ++ agent_handle) "success" none
      (some thread_id) none (some agent_run_id)
  else
    log_event_sync s
      (if status = "failed" then .agent_run_error else .agent_run_complete)
      none (some "agent_run") (some agent_run_id)
      ("agent_handle=" ++ agent_handle) status error_message
      (some thread_id) none (some agent_run_id)

/-- The `DataStore.create_post` from `backend/store.py`: fresh id, mentions
extracted from the text, `thread_id` inherited from the parent when the
parent exists and otherwise equal to the new post's own id, author the
human current user, followed by the `log_post_create` audit write (the
`update_conversation_audit` call touches only the conversation-audit
aggregate table and is omitted). -/
def create_post (s : Sys) (text : String) (parent_id : Option Nat) :
    Post × Sys :=
  let post_id := s.nextId
  let s1 : Sys := { s with nextId := s.nextId + 1 }
  let mentions := extract_mentions text
  let thread_id :=
    match parent_id with
    | some pid =>
        match findPost s1 pid with
        | some parent_post => parent_post.thread_id
        | none => post_id
    | none => post_id
  let post : Post :=
    { id := post_id, author_type := .human, author_handle := "@me",
      text := text, created_at := s1.clock, parent_id := parent_id,
      thread_id := thread_id, mentions := mentions }
  let s2 : Sys := { s1 with posts := s1.posts ++ [post] }
  let s3 := (log_post_create s2 post_id "user_1" text thread_id).2
  (post, s3)

/-- The `DataStore.create_agent_reply`: an agent-authored post with the given
parent and thread, no mention extraction, no audit write. -/
def create_agent_reply (s : Sys) (agent_handle : String) (text : String)
    (parent_id : Nat) (thread_id : Nat) : Post × Sys :=
  let post : Post :=
    { id := s.nextId, author_type := .agent, author_handle := agent_handle,
      text := text, created_at := s.clock, parent_id := some parent_id,
      thread_id := thread_id, mentions := [] }
  (post, { s with posts := s.posts ++ [post], nextId := s.nextId + 1 })

/-- The `DataStore.create_agent_run`: a fresh `QUEUED` run with `started_at`
now, no `ended_at`, no `output_post_id`, and the trigger post's text as
input context (empty when the trigger post is missing). -/
def create_agent_run (s : Sys) (agent_handle : String)
    (trigger_post_id : Nat) (thread_id : Nat) : AgentRun × Sys :=
  let run : AgentRun :=
    { id := s.nextId, agent_handle := agent_handle, thread_id := thread_id,
      trigger_post_id := trigger_post_id, status := .queued,
      started_at := s.clock, ended_at := none,
      input_context :=
        match findPost s trigger_post_id with
        | some p => p.text
        | none => "",
      output_post_id := none }
  (run, { s with agentRuns := s.agentRuns ++ [run], nextId := s.nextId + 1 })

/-- The `DataStore.update_agent_run_status` from `backend/store.py`: when the
run id is present, set the new status, set `ended_at` to the current time
(the source does this on every call, whatever the new status), and set
`output_post_id` only when one is passed; when the run id is absent the
call is a silent no-op.  No audit entry is written. -/
def update_agent_run_status (s : Sys) (run_id : Nat) (status : AgentStatus)
    (output_post_id : Option Nat) : Sys :=
  if s.agentRuns.any (fun r => decide (r.id = run_id)) then
    { s with agentRuns := s.agentRuns.map (fun r =>
        if r.id = run_id then
          { r with
            status := status
            ended_at := some s.clock
            output_post_id :=
              match output_post_id with
              | some pid => some pid
              | none => r.output_post_id }
        else r) }
  else s

/-- The `DataStore.get_active_agent_runs`: the runs of a thread whose status is
`QUEUED` or `RUNNING`, in table order. -/
def get_active_agent_runs (s : Sys) (thread_id : Nat) : List AgentRun :=
  s.agentRuns.filter (fun r =>
    decide (r.thread_id = thread_id ∧
      (r.status = AgentStatus.queued ∨ r.status = AgentStatus.running)))

/-- The `Thread` model from `backend/models.py`. -/
structure Thread where
  root_post : Post
  replies : List Post
deriving Repr, DecidableEq

/-- The `DataStore.get_thread`: the root post keyed by the thread id plus every
other post of the thread.  The source sorts replies by `created_at` with a
stable sort; the table is kept in creation order, on which that sort is the
identity. -/
def get_thread (s : Sys) (thread_id : Nat) : Option Thread :=
  match findPost s thread_id with
  | none => none
  | some root =>
      some ⟨root, s.posts.filter (fun p =>
        decide (p.thread_id = thread_id ∧ p.id ≠ thread_id))⟩

/-- Outcome of one call to the external reply-generation collaborator
(`Orchestrator._generate_with_llm` / `_generate_mock` in
`backend/orchestrator.py`): either a returned text (possibly empty) or a
raised exception.  The context-window construction feeding the call
(`get_thread_context`) only shapes the collaborator's input and is
absorbed into this parameter. -/
inductive GenOutcome where
  | ok (text : String)
  | raised (msg : String)
deriving Repr, DecidableEq

/-- Body of the `except` branch of `Orchestrator._execute_agent`: mark the
run `ERROR` (passing no output post id) and create an agent-authored
error-notice reply under the trigger post in the run's thread.  The
source's reply text is the exception message behind a fixed prefix. -/
def execute_agent_error_path (s : Sys) (run : AgentRun) (trigger : Post)
    (msg : String) : Sys :=
  let s1 := update_agent_run_status s run.id .error none
  let handle :=
    match (if run.agent_handle = "" then none else get_agent run.agent_handle) with
    | some a => a.handle
    | none => "@unknown"
  (create_agent_reply s1 handle ("Error processing request: " ++ msg)
    trigger.id run.thread_id).2

/-- The `Orchestrator._execute_agent` from `backend/orchestrator.py`: move the
run to `RUNNING`; fail over to the error path when the agent is unknown,
when the collaborator raises, or when it returns an empty text; otherwise
create the agent reply under the trigger post and mark the run `DONE` with
the reply as output post.  Every exception is caught inside the job, so
the function is total. -/
def execute_agent (s : Sys) (run : AgentRun) (trigger : Post)
    (gen : GenOutcome) : Sys :=
  let s1 := update_agent_run_status s run.id .running none
  match get_agent run.agent_handle with
  | none =>
      execute_agent_error_path s1 run trigger
        ("Agent " ++ run.agent_handle ++ " not found")
  | some agent =>
      match gen with
      | .raised msg => execute_agent_error_path s1 run trigger msg
      | .ok t =>
          if t = "" then
            execute_agent_error_path s1 run trigger "No response generated"
          else
            let (reply, s2) :=
              create_agent_reply s1 agent.handle t trigger.id run.thread_id
            update_agent_run_status s2 run.id .done (some reply.id)

/-- The mention loop of `Orchestrator.process_post`: for each extracted
mention whose agent resolves, synchronously create one `QUEUED` run (the
asynchronous `_execute_agent` task is spawned but does not start before
`process_post` returns; running the pending jobs is `run_agent_jobs`). -/
def create_runs_for_mentions (s : Sys) (post : Post) :
    List String → List AgentRun × Sys
  | [] => ([], s)
  | mention :: rest =>
      match get_agent mention with
      | some agent =>
          let (run, s1) :=
            create_agent_run s agent.handle post.id post.thread_id
          let (runs, s2) := create_runs_for_mentions s1 post rest
          (run :: runs, s2)
      | none => create_runs_for_mentions s post rest

/-- The `Orchestrator.process_post` from `backend/orchestrator.py`: create the
post, extract the mentions, create one `QUEUED` run per mention in order,
and return the post with the created runs; the per-mention jobs and the
slash-command jobs are spawned as background tasks and have not run yet
(the command jobs touch no `AgentRun` and no claim mentions them, so only
their spawning point is noted here). -/
def process_post (s : Sys) (text : String) (parent_id : Option Nat) :
    (Post × List AgentRun) × Sys :=
  let pr := create_post s text parent_id
  let cr := create_runs_for_mentions pr.2 pr.1 (extract_mentions text)
  ((pr.1, cr.1), cr.2)

/-- Running the spawned per-mention background jobs after `process_post`
returned, each with its own collaborator outcome. -/
def run_agent_jobs (s : Sys) (trigger : Post) :
    List (AgentRun × GenOutcome) → Sys
  | [] => s
  | (run, gen) :: rest =>
      run_agent_jobs (execute_agent s run trigger gen) trigger rest

/-- The `process_post` followed by the execution of all the background jobs it
spawned: the value returned to the caller is the first component, the
state after the jobs finished is the second. -/
def process_post_then_jobs (s : Sys) (text : String)
    (parent_id : Option Nat) (gens : List GenOutcome) :
    (Post × List AgentRun) × Sys :=
  let r := process_post s text parent_id
  (r.1, run_agent_jobs r.2 r.1.1 (r.1.2.zip gens))

/-- The named SSE events emitted by `stream_thread_updates.event_stream` in
`backend/main.py` (the `error` event terminates the loop and is outside
every claim; payload fields not needed by any claim are dropped). -/
inductive StreamEvent where
  | agent_run (run_id : Nat) (agent_handle : String) (status : AgentStatus)
  | agent_status_change (run_id : Nat) (status : AgentStatus)
  | new_post (post_id : Nat)
  | heartbeat
deriving Repr, DecidableEq

/-- The local variables of `event_stream` that survive from one loop
iteration to the next. -/
structure StreamState where
  seen_runs : List Nat
  seen_posts : List Nat
  last_new_post_id : Option Nat
deriving Repr, DecidableEq

/-- Initial stream state: `seen_runs = set()`, `seen_posts = set()`,
`last_new_post_id = None`. -/
def StreamState.initial : StreamState := ⟨[], [], none⟩

/-- The per-post emission loop of the `new_posts` branch of
`event_stream`: walk the thread's posts in order, emit `new_post` for each
id in `new_posts` that is not the running `last_new_post_id`, updating the
running value on each emission. -/
def emit_new_posts (new_posts : List Nat) :
    List Post → Option Nat → List StreamEvent × Option Nat
  | [], last => ([], last)
  | post :: rest, last =>
      if post.id ∈ new_posts ∧ last ≠ some post.id then
        (StreamEvent.new_post post.id ::
            (emit_new_posts new_posts rest (some post.id)).1,
         (emit_new_posts new_posts rest (some post.id)).2)
      else emit_new_posts new_posts rest last

/-- The `current_runs - seen_runs` of one loop iteration: the active run ids
not seen before, in table order. -/
def iter_new_runs (s : Sys) (thread_id : Nat) (st : StreamState) :
    List Nat :=
  ((get_active_agent_runs s thread_id).map (fun r => r.id)).filter
    (fun i => decide (i ∉ st.seen_runs))

/-- The `agent_run` events of one loop iteration: one per newly seen
active run id, built from the run looked up among the active runs. -/
def iter_run_events (s : Sys) (thread_id : Nat) (st : StreamState) :
    List StreamEvent :=
  (iter_new_runs s thread_id st).filterMap (fun run_id =>
    match (get_active_agent_runs s thread_id).find?
        (fun r => decide (r.id = run_id)) with
    | some run =>
        some (StreamEvent.agent_run run.id run.agent_handle run.status)
    | none => none)

/-- The `agent_status_change` events of one loop iteration: for every
active run already in `seen_runs` (which the source updated just before
this loop), refetch the run from the store and emit when the refetched
status differs from the status read when the active runs were listed. -/
def iter_change_events (s : Sys) (thread_id : Nat) (st : StreamState) :
    List StreamEvent :=
  (get_active_agent_runs s thread_id).filterMap (fun run =>
    if run.id ∈ st.seen_runs ++ iter_new_runs s thread_id st then
      match findRun s run.id with
      | some latest =>
          if latest.status ≠ run.status then
            some (StreamEvent.agent_status_change latest.id latest.status)
          else none
      | none => none
    else none)

/-- The `new_post` section of one loop iteration: its events, the newly
seen post ids, and the updated `last_new_post_id`. -/
def iter_posts (s : Sys) (thread_id : Nat) (st : StreamState) :
    List StreamEvent × List Nat × Option Nat :=
  match get_thread s thread_id with
  | none => ([], [], st.last_new_post_id)
  | some thread =>
      let thread_posts := thread.root_post :: thread.replies
      let new_posts := (thread_posts.map (fun p => p.id)).filter
        (fun i => decide (i ∉ st.seen_posts))
      ((emit_new_posts new_posts thread_posts st.last_new_post_id).1,
       new_posts,
       (emit_new_posts new_posts thread_posts st.last_new_post_id).2)

/-- One iteration of the polling loop of `stream_thread_updates.event_stream`
(`backend/main.py`), reading one snapshot of the store:
1. recompute the thread's active runs; emit `agent_run` for every active
   run id not in `seen_runs`, then add those ids to `seen_runs`;
2. for every active run now in `seen_runs`, refetch it from the store and
   emit `agent_status_change` when the refetched status differs from the
   status read in step 1 (on one snapshot the two reads agree);
3. when the thread exists, emit `new_post` for every thread post id not in
   `seen_posts` (skipping the running `last_new_post_id`), then add those
   ids to `seen_posts`;
4. emit the heartbeat marker. -/
def stream_iteration (s : Sys) (thread_id : Nat) (st : StreamState) :
    List StreamEvent × StreamState :=
  (iter_run_events s thread_id st ++ iter_change_events s thread_id st ++
      (iter_posts s thread_id st).1 ++ [StreamEvent.heartbeat],
   { seen_runs := st.seen_runs ++ iter_new_runs s thread_id st
     seen_posts := st.seen_posts ++ (iter_posts s thread_id st).2.1
     last_new_post_id := (iter_posts s thread_id st).2.2 })

/-- Successive iterations of the stream loop over the store snapshots seen
at successive polls. -/
def stream_trace (thread_id : Nat) :
    List Sys → StreamState → List (List StreamEvent)
  | [], _ => []
  | s :: rest, st =>
      (stream_iteration s thread_id st).1 ::
        stream_trace thread_id rest (stream_iteration s thread_id st).2

/-- The run id an event reports on, when it is a run event. -/
def StreamEvent.runId : StreamEvent → Option Nat
  | .agent_run i _ _ => some i
  | .agent_status_change i _ => some i
  | _ => none

/-- The `.value` string of an `AuditEventType` member. -/
def eventTypeValue : AuditEventType → String
  | .post_create => "post_create"
  | .post_delete => "post_delete"
  | .agent_run_start => "agent_run_start"
  | .agent_run_complete => "agent_run_complete"
  | .agent_run_error => "agent_run_error"

/-- How `csv.writer` renders an optional string cell (`None` becomes the
empty cell). -/
def csvOptStr : Option String → String
  | some v => v
  | none => ""

/-- How `csv.writer` renders an optional id cell. -/
def csvOptNat : Option Nat → String
  | some v => toString v
  | none => ""

/-- The header row written by the CSV branch of `AuditService.export_logs`
(`backend/services/audit_service.py`). -/
def service_csv_header : List String :=
  ["timestamp", "event_type", "user_id", "resource_type", "resource_id",
   "status", "thread_id"]

/-- One data row written by the CSV branch of `AuditService.export_logs`. -/
def service_csv_row (log : AuditLog) : List String :=
  [toString log.timestamp, eventTypeValue log.event_type,
   csvOptStr log.user_id, csvOptStr log.resource_type,
   csvOptNat log.resource_id, log.status, csvOptNat log.thread_id]

/-- The CSV branch of `AuditService.export_logs` applied to the selected
logs: header row then one row per entry (the date-range selection and the
page-size cap are orthogonal to the row format and are the function's
input here). -/
def export_logs_csv (logs : List AuditLog) : List (List String) :=
  service_csv_header :: logs.map service_csv_row

/-- The header row written by the CSV branch of the
`/admin/audit/logs/export` endpoint (`backend/main.py`). -/
def endpoint_csv_header : List String :=
  ["id", "timestamp", "event_type", "user_id", "resource_type",
   "resource_id", "status", "thread_id", "post_id", "ip_address",
   "user_agent", "details", "error_message"]

/-- One data row written by the CSV branch of the
`/admin/audit/logs/export` endpoint. -/
def endpoint_csv_row (log : AuditLog) : List String :=
  [toString log.id, toString log.timestamp, eventTypeValue log.event_type,
   csvOptStr log.user_id, csvOptStr log.resource_type,
   csvOptNat log.resource_id, log.status, csvOptNat log.thread_id,
   csvOptNat log.post_id, csvOptStr log.ip_address,
   csvOptStr log.user_agent, log.details, csvOptStr log.error_message]

/-- The CSV branch of the `/admin/audit/logs/export` endpoint applied to
the selected logs. -/
def export_endpoint_csv (logs : List AuditLog) : List (List String) :=
  endpoint_csv_header :: logs.map endpoint_csv_row

/-- Modelled from the spec: the fixed CSV column order the specification
promises for audit-log exports
(`id,timestamp,event_type,user_id,resource_type,resource_id,status,thread_id,post_id,ip_address,user_agent,details,error_message`),
written down for comparison with the two export paths of the source. -/
def specCsvColumnOrder : List String :=
  ["id", "timestamp", "event_type", "user_id", "resource_type",
   "resource_id", "status", "thread_id", "post_id", "ip_address",
   "user_agent", "details", "error_message"]

/-- ASCII lowering as performed by Python's `str.lower` on ASCII text,
used to express the case-insensitive comparison the specification
describes for mention handles. -/
def asciiLower (c : Char) : Char :=
  if 'A' ≤ c ∧ c ≤ 'Z' then Char.ofNat (c.toNat + 32) else c

/-- Lowercase a whole string, character by character. -/
def lowerStr (str : String) : String :=
  String.mk (str.data.map asciiLower)

/-- Projection used to state run-status facts: the stored status of the
run with the given id. -/
def statusOf (s : Sys) (rid : Nat) : Option AgentStatus :=
  (findRun s rid).map (fun r => r.status)

/-- Projection used to state `ended_at` facts. -/
def endedOf (s : Sys) (rid : Nat) : Option (Option Nat) :=
  (findRun s rid).map (fun r => r.ended_at)

/-- Projection used to state `output_post_id` facts. -/
def outputOf (s : Sys) (rid : Nat) : Option (Option Nat) :=
  (findRun s rid).map (fun r => r.output_post_id)

/-- Concrete fixture: a human root post in thread `100` mentioning grok. -/
def postA : Post :=
  { id := 100, author_type := .human, author_handle := "@me",
    text := "hello @grok", created_at := 0, parent_id := none,
    thread_id := 100, mentions := ["grok"] }

/-- Concrete fixture: a `QUEUED` run of grok triggered by `postA`. -/
def runA : AgentRun :=
  { id := 0, agent_handle := "@grok", thread_id := 100,
    trigger_post_id := 100, status := .queued, started_at := 0,
    ended_at := none, input_context := "hello @grok",
    output_post_id := none }

/-- Concrete fixture: the store holding `postA` and `runA`. -/
def sysA : Sys :=
  { posts := [postA], agentRuns := [runA], likes := [], auditLogs := [],
    nextId := 101, clock := 1 }

/-- Concrete fixture: `sysA` after its run entered `RUNNING` through the
store's transition operation. -/
def sysB : Sys := update_agent_run_status sysA 0 .running none

/-- Concrete fixture: `sysA` after its run was marked `DONE`. -/
def sysDone : Sys := update_agent_run_status sysA 0 .done none

/-- Concrete fixture: the empty store. -/
def sysEmpty : Sys :=
  { posts := [], agentRuns := [], likes := [], auditLogs := [],
    nextId := 0, clock := 0 }

/-- Concrete fixture: one audit entry, for export-format statements. -/
def sampleLog : AuditLog :=
  { id := 7, timestamp := 3, event_type := .post_create,
    user_id := some "user_1", ip_address := none, user_agent := none,
    resource_type := some "post", resource_id := some 100,
    details := "text=hi", status := "success", error_message := none,
    thread_id := some 100, post_id := some 100, agent_run_id := none }

/- Helper lemmas about the store operations. -/

theorem update_agent_run_status_auditLogs (s : Sys) (rid : Nat)
    (st : AgentStatus) (out : Option Nat) :
    (update_agent_run_status s rid st out).auditLogs = s.auditLogs := by
  unfold update_agent_run_status
  split <;> rfl

theorem update_agent_run_status_posts (s : Sys) (rid : Nat)
    (st : AgentStatus) (out : Option Nat) :
    (update_agent_run_status s rid st out).posts = s.posts := by
  unfold update_agent_run_status
  split <;> rfl

theorem update_agent_run_status_clock (s : Sys) (rid : Nat)
    (st : AgentStatus) (out : Option Nat) :
    (update_agent_run_status s rid st out).clock = s.clock := by
  unfold update_agent_run_status
  split <;> rfl

theorem update_agent_run_status_nextId (s : Sys) (rid : Nat)
    (st : AgentStatus) (out : Option Nat) :
    (update_agent_run_status s rid st out).nextId = s.nextId := by
  unfold update_agent_run_status
  split <;> rfl

theorem create_agent_reply_agentRuns (s : Sys) (h t : String)
    (pid tid : Nat) :
    (create_agent_reply s h t pid tid).2.agentRuns = s.agentRuns := rfl

theorem create_agent_reply_clock (s : Sys) (h t : String) (pid tid : Nat) :
    (create_agent_reply s h t pid tid).2.clock = s.clock := rfl

theorem create_agent_reply_posts (s : Sys) (h t : String) (pid tid : Nat) :
    (create_agent_reply s h t pid tid).2.posts =
      s.posts ++ [(create_agent_reply s h t pid tid).1] := rfl

/-- The `find?` over an id-preserving per-element rewrite commutes with the
rewrite. -/
theorem find?_id_map (rid : Nat) (g : AgentRun → AgentRun)
    (hid : ∀ r, (g r).id = r.id) :
    ∀ l : List AgentRun,
      (l.map g).find? (fun r => decide (r.id = rid)) =
        (l.find? (fun r => decide (r.id = rid))).map g := by
  intro l
  induction l with
  | nil => rfl
  | cons a as ih =>
      by_cases h : a.id = rid
      · rw [List.map_cons, List.find?_cons_of_pos, List.find?_cons_of_pos]
        · rfl
        · simp [h]
        · simp [hid a, h]
      · rw [List.map_cons, List.find?_cons_of_neg, List.find?_cons_of_neg]
        · exact ih
        · simp [h]
        · simp [hid a, h]

/-- The record rewrite `update_agent_run_status` applies to the targeted
run. -/
def applyStatusUpdate (clock : Nat) (st : AgentStatus) (out : Option Nat)
    (r : AgentRun) : AgentRun :=
  { r with
    status := st
    ended_at := some clock
    output_post_id :=
      match out with
      | some pid => some pid
      | none => r.output_post_id }

/-- Looking the targeted run up after a status update returns the rewritten
record. -/
theorem findRun_update (s : Sys) (rid : Nat) (st : AgentStatus)
    (out : Option Nat) :
    findRun (update_agent_run_status s rid st out) rid =
      (findRun s rid).map (applyStatusUpdate s.clock st out) := by
  unfold update_agent_run_status findRun
  by_cases hany : s.agentRuns.any (fun r => decide (r.id = rid)) = true
  · rw [if_pos hany]
    show (s.agentRuns.map _).find? _ = _
    rw [show (fun r : AgentRun =>
          if r.id = rid then
            { r with
              status := st
              ended_at := some s.clock
              output_post_id :=
                match out with
                | some pid => some pid
                | none => r.output_post_id }
          else r) =
        (fun r : AgentRun =>
          if r.id = rid then applyStatusUpdate s.clock st out r else r)
      from rfl]
    rw [find?_id_map rid _ (fun r => by
      by_cases h : r.id = rid <;> simp [h, applyStatusUpdate])]
    cases hfind : s.agentRuns.find? (fun r => decide (r.id = rid)) with
    | none => rfl
    | some r =>
        have hp := List.find?_some hfind
        simp only [decide_eq_true_eq] at hp
        simp [hp]
  · rw [if_neg hany]
    have : s.agentRuns.find? (fun r => decide (r.id = rid)) = none := by
      rw [List.find?_eq_none]
      intro r hr hcontra
      exact hany (List.any_eq_true.mpr ⟨r, hr, hcontra⟩)
    simp [this]

/-- A status update leaves runs with other ids untouched. -/
theorem findRun_update_other (s : Sys) (rid rid' : Nat) (st : AgentStatus)
    (out : Option Nat) (hne : rid' ≠ rid) :
    findRun (update_agent_run_status s rid st out) rid' =
      findRun s rid' := by
  unfold update_agent_run_status findRun
  by_cases hany : s.agentRuns.any (fun r => decide (r.id = rid)) = true
  · rw [if_pos hany]
    show (s.agentRuns.map _).find? _ = _
    induction s.agentRuns with
    | nil => rfl
    | cons a as ih =>
        by_cases h : a.id = rid'
        · have hna : ¬ a.id = rid := fun hc => hne (h ▸ hc.symm ▸ rfl)
          rw [List.map_cons, List.find?_cons_of_pos, List.find?_cons_of_pos]
          · simp [hna]
          · simp [h]
          · simp [hna, h, hne]
        · by_cases h2 : a.id = rid
          · rw [List.map_cons, List.find?_cons_of_neg, List.find?_cons_of_neg]
            · exact ih
            · simp [h]
            · simp [h2, h]
              intro hc
              exact hne (by omega)
          · rw [List.map_cons, List.find?_cons_of_neg, List.find?_cons_of_neg]
            · exact ih
            · simp [h]
            · simp [h2, h]
  · rw [if_neg hany]

theorem log_event_sync_posts (s : Sys) (et : AuditEventType)
    (u : Option String) (rt : Option String) (ri : Option Nat) (d : String)
    (st : String) (em : Option String) (t p a : Option Nat) :
    (log_event_sync s et u rt ri d st em t p a).2.posts = s.posts := rfl

theorem log_event_sync_agentRuns (s : Sys) (et : AuditEventType)
    (u : Option String) (rt : Option String) (ri : Option Nat) (d : String)
    (st : String) (em : Option String) (t p a : Option Nat) :
    (log_event_sync s et u rt ri d st em t p a).2.agentRuns =
      s.agentRuns := rfl

theorem findPost_set_nextId (s : Sys) (n : Nat) (pid : Nat) :
    findPost { s with nextId := n } pid = findPost s pid := rfl

/- Claim theorems. -/

/-- C10: for a run id absent from the run table,
`update_agent_run_status` raises no error and leaves the entire store
(posts, agent runs, likes, audit log, counters) unchanged: the call is a
silent no-op rather than a not-found failure. -/
theorem C10_update_missing_run_noop (s : Sys) (rid : Nat)
    (st : AgentStatus) (out : Option Nat)
    (h : ∀ r ∈ s.agentRuns, r.id ≠ rid) :
    update_agent_run_status s rid st out = s := by
  unfold update_agent_run_status
  rw [if_neg]
  intro hc
  obtain ⟨r, hr, hp⟩ := List.any_eq_true.mp hc
  exact h r hr (by simpa using hp)

theorem C10_update_missing_run_noop_witness :
    update_agent_run_status sysA 999 .done none = sysA :=
  C10_update_missing_run_noop sysA 999 .done none (by decide)

/-- C9: `create_post` with a `parent_id` that references no existing post
still creates the post without error, and the new post becomes the root of
a new thread: its `thread_id` equals its own id rather than any inherited
thread. -/
theorem C9_dangling_parent_new_thread (s : Sys) (text : String) (pid : Nat)
    (h : findPost s pid = none) :
    (create_post s text (some pid)).1.thread_id =
        (create_post s text (some pid)).1.id ∧
    (create_post s text (some pid)).1.parent_id = some pid ∧
    (create_post s text (some pid)).1 ∈
        (create_post s text (some pid)).2.posts := by
  have h' : findPost { s with nextId := s.nextId + 1 } pid = none := h
  simp only [create_post, h']
  refine ⟨trivial, trivial, ?_⟩
  show _ ∈ (log_post_create _ _ _ _ _).2.posts
  unfold log_post_create
  rw [log_event_sync_posts]
  exact List.mem_append_right _ (List.mem_singleton.mpr rfl)

theorem C9_dangling_parent_new_thread_witness :
    (create_post sysEmpty "orphan reply" (some 42)).1.thread_id =
        (create_post sysEmpty "orphan reply" (some 42)).1.id ∧
    (create_post sysEmpty "orphan reply" (some 42)).1.parent_id = some 42 ∧
    (create_post sysEmpty "orphan reply" (some 42)).1 ∈
        (create_post sysEmpty "orphan reply" (some 42)).2.posts :=
  C9_dangling_parent_new_thread sysEmpty "orphan reply" 42 (by decide)

/-- C2 counterexample: the store's transition operation records no
AuditLogEntry at all.  Starting from a store whose audit log is empty and
whose run `0` is `QUEUED`, moving the run to `RUNNING` through
`update_agent_run_status` really performs the transition, yet afterwards
the audit log is still empty — not the exactly-one matching entry the
claim demands. -/
theorem C2_counterexample :
    statusOf sysA 0 = some .queued ∧
    statusOf (update_agent_run_status sysA 0 .running none) 0 =
        some .running ∧
    sysA.auditLogs = [] ∧
    (update_agent_run_status sysA 0 .running none).auditLogs = [] := by
  decide

/-- C2 amended: an AgentRun status transition emits no AuditLogEntry —
`update_agent_run_status` leaves the audit log untouched.  The audit
helper `AuditService.log_agent_run` would record exactly one entry per
call, with `agent_run_id` equal to the run's id and event type
`AGENT_RUN_START` for a `"running"` report, `AGENT_RUN_ERROR` for a
`"failed"` report and `AGENT_RUN_COMPLETE` otherwise, but no code path of
the repository ever calls it. -/
theorem C2_transitions_unaudited (s : Sys) (rid : Nat) (st : AgentStatus)
    (out : Option Nat) (handle : String) (tid : Nat) (status : String)
    (err : Option String) :
    (update_agent_run_status s rid st out).auditLogs = s.auditLogs ∧
    (log_agent_run s rid handle tid status err).2.auditLogs =
      s.auditLogs ++ [(log_agent_run s rid handle tid status err).1] ∧
    (log_agent_run s rid handle tid status err).1.agent_run_id =
      some rid ∧
    (log_agent_run s rid handle tid status err).1.event_type =
      (if status = "running" then .agent_run_start
       else if status = "failed" then .agent_run_error
       else .agent_run_complete) := by
  refine ⟨update_agent_run_status_auditLogs s rid st out, ?_, ?_, ?_⟩ <;>
    · unfold log_agent_run log_event_sync
      by_cases h1 : status = "running" <;>
        by_cases h2 : status = "failed" <;> simp [h1, h2]

theorem findRun_create_reply (s : Sys) (h t : String) (p tid rid : Nat) :
    findRun (create_agent_reply s h t p tid).2 rid = findRun s rid := rfl

/-- After the error path, the targeted run is its previous stored record
with status `ERROR`, `ended_at` the current time, and its previous output
post id. -/
theorem findRun_error_path (s : Sys) (run : AgentRun) (trigger : Post)
    (msg : String) (r1 : AgentRun) (hr : findRun s run.id = some r1) :
    findRun (execute_agent_error_path s run trigger msg) run.id =
      some (applyStatusUpdate s.clock .error none r1) := by
  unfold execute_agent_error_path
  rw [findRun_create_reply, findRun_update, hr]
  rfl

/-- Whatever the collaborator outcome, `_execute_agent` drives the run
from its stored record through `RUNNING` into exactly one terminal status
(`DONE` or `ERROR`), with `ended_at` stamped by both updates. -/
theorem execute_agent_run_state (s : Sys) (run : AgentRun) (trigger : Post)
    (gen : GenOutcome) (r0 : AgentRun) (hr : findRun s run.id = some r0) :
    ∃ st : AgentStatus, (st = .done ∨ st = .error) ∧
      ∃ out : Option Nat,
        findRun (execute_agent s run trigger gen) run.id =
          some (applyStatusUpdate s.clock st out
            (applyStatusUpdate s.clock .running none r0)) := by
  have hr1 : findRun (update_agent_run_status s run.id .running none)
      run.id = some (applyStatusUpdate s.clock .running none r0) := by
    rw [findRun_update, hr]; rfl
  cases hga : get_agent run.agent_handle with
  | none =>
      refine ⟨.error, Or.inr rfl, none, ?_⟩
      simp only [execute_agent, hga]
      rw [findRun_error_path _ _ _ _ _ hr1,
        update_agent_run_status_clock]
  | some agent =>
      cases gen with
      | raised msg =>
          refine ⟨.error, Or.inr rfl, none, ?_⟩
          simp only [execute_agent, hga]
          rw [findRun_error_path _ _ _ _ _ hr1,
            update_agent_run_status_clock]
      | ok t =>
          by_cases ht : t = ""
          · refine ⟨.error, Or.inr rfl, none, ?_⟩
            simp only [execute_agent, hga, if_pos ht]
            rw [findRun_error_path _ _ _ _ _ hr1,
              update_agent_run_status_clock]
          · refine ⟨.done, Or.inl rfl, some (update_agent_run_status s
              run.id .running none).nextId, ?_⟩
            simp only [execute_agent, hga, if_neg ht]
            rw [findRun_update, findRun_create_reply, hr1,
              create_agent_reply_clock, update_agent_run_status_clock]
            rfl

/-- C4 counterexample: `ended_at` is not "unset while the run is RUNNING".
Entering `RUNNING` through the store's transition operation already sets
`ended_at` (the source sets it on every status update), so a run that is
`RUNNING` and has never left that state carries an `ended_at` value. -/
theorem C4_counterexample :
    endedOf sysA 0 = some none ∧
    statusOf sysB 0 = some .running ∧
    endedOf sysB 0 = some (some 1) := by
  refine ⟨by decide, by decide, by decide⟩

/-- C4 amended: along `_execute_agent` a queued run takes
QUEUED→RUNNING→{DONE|ERROR}, each forward edge once; but `ended_at` is
stamped by every status update, so it is already set on entering RUNNING
rather than "exactly when leaving RUNNING". -/
theorem C4_ended_at_on_every_update (s : Sys) (run : AgentRun)
    (trigger : Post) (gen : GenOutcome)
    (hrun : findRun s run.id = some run) (_hq : run.status = .queued) :
    (statusOf (update_agent_run_status s run.id .running none) run.id =
        some .running ∧
     endedOf (update_agent_run_status s run.id .running none) run.id =
        some (some s.clock)) ∧
    ((statusOf (execute_agent s run trigger gen) run.id = some .done ∨
      statusOf (execute_agent s run trigger gen) run.id = some .error) ∧
     endedOf (execute_agent s run trigger gen) run.id =
        some (some s.clock)) := by
  constructor
  · constructor
    · unfold statusOf
      rw [findRun_update, hrun]
      rfl
    · unfold endedOf
      rw [findRun_update, hrun]
      rfl
  · obtain ⟨st, hst, out, hfin⟩ :=
      execute_agent_run_state s run trigger gen run hrun
    constructor
    · cases hst with
      | inl h =>
          exact Or.inl (by unfold statusOf; rw [hfin, h]; rfl)
      | inr h =>
          exact Or.inr (by unfold statusOf; rw [hfin, h]; rfl)
    · unfold endedOf
      rw [hfin]
      rfl

theorem C4_ended_at_on_every_update_witness :
    statusOf (update_agent_run_status sysA runA.id .running none) runA.id =
        some .running ∧
    endedOf (update_agent_run_status sysA runA.id .running none) runA.id =
        some (some 1) ∧
    endedOf (execute_agent sysA runA postA (GenOutcome.ok "hi")) runA.id =
        some (some 1) :=
  ⟨(C4_ended_at_on_every_update sysA runA postA (GenOutcome.ok "hi")
      (by decide) (by decide)).1.1,
   (C4_ended_at_on_every_update sysA runA postA (GenOutcome.ok "hi")
      (by decide) (by decide)).1.2,
   (C4_ended_at_on_every_update sysA runA postA (GenOutcome.ok "hi")
      (by decide) (by decide)).2.2⟩

/-- The `get_agent` of the empty handle finds nothing. -/
theorem get_agent_empty : get_agent "" = none := by decide

/-- C5: when the collaborator returns an empty result or raises, the run
ends `ERROR` with `output_post_id` still unset, exactly one agent-authored
error-notice post is appended under the trigger post in the run's thread,
and no failure inside any background job ever alters the value
`process_post` returns to its caller. -/
theorem C5_generation_failure_contained (s : Sys) (run : AgentRun)
    (trigger : Post) (gen : GenOutcome) (agent : Agent)
    (hrun : findRun s run.id = some run)
    (hout : run.output_post_id = none)
    (hagent : get_agent run.agent_handle = some agent)
    (hfail : gen = .ok "" ∨ ∃ msg, gen = .raised msg) :
    statusOf (execute_agent s run trigger gen) run.id = some .error ∧
    outputOf (execute_agent s run trigger gen) run.id = some none ∧
    (∃ p : Post, (execute_agent s run trigger gen).posts = s.posts ++ [p] ∧
      p.author_type = .agent ∧ p.author_handle = agent.handle ∧
      p.parent_id = some trigger.id ∧ p.thread_id = run.thread_id ∧
      p.created_at = s.clock) ∧
    (∀ (s2 : Sys) (text2 : String) (pid2 : Option Nat)
        (gens : List GenOutcome),
      (process_post_then_jobs s2 text2 pid2 gens).1 =
        (process_post s2 text2 pid2).1) := by
  have hne : ¬ run.agent_handle = "" := by
    intro hc
    rw [hc, get_agent_empty] at hagent
    cases hagent
  have hr1 : findRun (update_agent_run_status s run.id .running none)
      run.id = some (applyStatusUpdate s.clock .running none run) := by
    rw [findRun_update, hrun]; rfl
  have hmsg : ∃ msg, execute_agent s run trigger gen =
      execute_agent_error_path
        (update_agent_run_status s run.id .running none) run trigger msg := by
    cases hfail with
    | inl h => exact ⟨"No response generated", by simp [execute_agent, h, hagent]⟩
    | inr h =>
        obtain ⟨msg, hm⟩ := h
        exact ⟨msg, by simp [execute_agent, hm, hagent]⟩
  obtain ⟨msg, hexec⟩ := hmsg
  refine ⟨?_, ?_, ?_, ?_⟩
  · unfold statusOf
    rw [hexec, findRun_error_path _ _ _ _ _ hr1]
    rfl
  · unfold outputOf
    rw [hexec, findRun_error_path _ _ _ _ _ hr1]
    simp [applyStatusUpdate, hout]
  · rw [hexec]
    simp only [execute_agent_error_path, if_neg hne, hagent]
    refine ⟨(create_agent_reply
        (update_agent_run_status
          (update_agent_run_status s run.id .running none)
          run.id .error none)
        agent.handle ("Error processing request: " ++ msg)
        trigger.id run.thread_id).1, ?_, rfl, rfl, rfl, rfl, ?_⟩
    · rw [create_agent_reply_posts, update_agent_run_status_posts,
        update_agent_run_status_posts]
    · show (update_agent_run_status
          (update_agent_run_status s run.id .running none)
          run.id .error none).clock = s.clock
      rw [update_agent_run_status_clock, update_agent_run_status_clock]
  · intro s2 text2 pid2 gens
    rfl

/-- Every token produced by the regex scan is a nonempty run of word
characters. -/
theorem mem_mentionTokensAux_wordChars :
    ∀ (fuel : Nat) (l : List Char) (m : String),
      m ∈ mentionTokensAux fuel l →
      m.data ≠ [] ∧ ∀ c ∈ m.data, isWordChar c
  | 0, _, m, hm => by simp [mentionTokensAux] at hm
  | _ + 1, [], m, hm => by simp [mentionTokensAux] at hm
  | fuel + 1, c :: rest, m, hm => by
      by_cases hc : c = '@'
      · simp only [mentionTokensAux, if_pos hc] at hm
        by_cases he : (rest.takeWhile isWordChar).isEmpty
        · rw [if_pos he] at hm
          exact mem_mentionTokensAux_wordChars fuel rest m hm
        · rw [if_neg he] at hm
          rcases List.mem_cons.mp hm with h | h
          · subst h
            refine ⟨?_, ?_⟩
            · intro hnil
              apply he
              have htw : rest.takeWhile isWordChar = [] := hnil
              rw [htw]
              rfl
            · intro ch hch
              exact List.mem_takeWhile_imp hch
          · exact mem_mentionTokensAux_wordChars fuel _ m h
      · simp only [mentionTokensAux, if_neg hc] at hm
        exact mem_mentionTokensAux_wordChars fuel rest m hm

/-- A word character is never the `@` sign. -/
theorem wordChar_ne_at {c : Char} (h : isWordChar c) : ¬ c = '@' := by
  intro hc
  rw [hc] at h
  exact absurd h (by decide)

/-- Every mention kept by `extract_mentions` resolves through `get_agent`:
the token is a key of the registry and carries no leading `@`, so the
`lstrip` inside `get_agent` leaves it unchanged. -/
theorem get_agent_of_mention {text m : String}
    (hm : m ∈ extract_mentions text) : (get_agent m).isSome := by
  have hsome : (AGENTS.lookup m).isSome := by
    simpa using List.of_mem_filter hm
  have htok : m ∈ mentionTokens text.data := List.mem_of_mem_filter hm
  have hw := mem_mentionTokensAux_wordChars _ _ m htok
  obtain ⟨mdata⟩ := m
  cases mdata with
  | nil => exact absurd rfl hw.1
  | cons c cs =>
      have hcw : isWordChar c :=
        hw.2 c (List.mem_cons_self c cs)
      unfold get_agent
      rw [show (String.mk (c :: cs)).data = c :: cs from rfl,
        List.dropWhile_cons]
      rw [if_neg (by simpa using wordChar_ne_at hcw)]
      simpa using hsome

/-- Shape of the run list built by the mention loop: one run per mention
in order, with consecutive fresh ids starting at the current counter, all
`QUEUED`, all triggered by the given post in its thread. -/
theorem create_runs_maps (post : Post) (ms : List String) : ∀ (s : Sys),
    (∀ m ∈ ms, (get_agent m).isSome) →
    ((create_runs_for_mentions s post ms).1.map (fun r => r.id) =
        List.range' s.nextId ms.length ∧
     (create_runs_for_mentions s post ms).1.map (fun r => r.status) =
        List.replicate ms.length AgentStatus.queued ∧
     (create_runs_for_mentions s post ms).1.map (fun r => r.trigger_post_id) =
        List.replicate ms.length post.id ∧
     (create_runs_for_mentions s post ms).1.map (fun r => r.thread_id) =
        List.replicate ms.length post.thread_id ∧
     (create_runs_for_mentions s post ms).2.nextId =
        s.nextId + ms.length) := by
  induction ms with
  | nil =>
      intro s _
      simp [create_runs_for_mentions]
  | cons m rest ih =>
      intro s h
      obtain ⟨a, ha⟩ := Option.isSome_iff_exists.mp
        (h m (List.mem_cons_self m rest))
      obtain ⟨ih1, ih2, ih3, ih4, ih5⟩ :=
        ih { s with
              agentRuns := s.agentRuns ++
                [{ id := s.nextId
                   agent_handle := a.handle
                   thread_id := post.thread_id
                   trigger_post_id := post.id
                   status := .queued
                   started_at := s.clock
                   ended_at := none
                   input_context :=
                     match findPost s post.id with
                     | some p => p.text
                     | none => ""
                   output_post_id := none }]
              nextId := s.nextId + 1 }
          (fun m' hm' => h m' (List.mem_cons_of_mem m hm'))
      simp only [create_runs_for_mentions, ha, create_agent_run,
        List.map_cons, List.length_cons]
      refine ⟨?_, ?_, ?_, ?_, ?_⟩
      · rw [List.range'_succ]
        exact congrArg (List.cons s.nextId) ih1
      · exact congrArg (List.cons AgentStatus.queued) ih2
      · exact congrArg (List.cons post.id) ih3
      · exact congrArg (List.cons post.thread_id) ih4
      · rw [ih5]
        show s.nextId + 1 + rest.length = s.nextId + (rest.length + 1)
        omega

/-- The run list `process_post` returns, described by its projections. -/
theorem process_post_run_facts (s : Sys) (text : String)
    (parent_id : Option Nat) :
    (process_post s text parent_id).1.2.map (fun r => r.id) =
      List.range' (create_post s text parent_id).2.nextId
        (extract_mentions text).length ∧
    (process_post s text parent_id).1.2.map (fun r => r.status) =
      List.replicate (extract_mentions text).length AgentStatus.queued ∧
    (process_post s text parent_id).1.2.map (fun r => r.trigger_post_id) =
      List.replicate (extract_mentions text).length
        (process_post s text parent_id).1.1.id ∧
    (process_post s text parent_id).1.2.map (fun r => r.thread_id) =
      List.replicate (extract_mentions text).length
        (process_post s text parent_id).1.1.thread_id := by
  have h := create_runs_maps (create_post s text parent_id).1
    (extract_mentions text) (create_post s text parent_id).2
    (fun m hm => get_agent_of_mention hm)
  exact ⟨h.1, h.2.1, h.2.2.1, h.2.2.2.1⟩

/-- C1 counterexample: duplicate mentions are not collapsed.  The post
`"@grok @grok"` contains one distinct valid mentioned agent, yet
`process_post` creates two AgentRuns for grok. -/
theorem C1_counterexample :
    extract_mentions "@grok @grok" = ["grok", "grok"] ∧
    (process_post sysEmpty "@grok @grok" none).1.2.map
        (fun r => r.agent_handle) = ["@grok", "@grok"] ∧
    (process_post sysEmpty "@grok @grok" none).1.2.length = 2 := by
  decide

/-- C1 amended: `process_post` creates exactly one QUEUED AgentRun per
valid mention occurrence (so k runs for k occurrences, duplicates not
collapsed), each with a unique fresh id, each pointing at the created post
and its thread. -/
theorem C1_run_per_mention_occurrence (s : Sys) (text : String)
    (parent_id : Option Nat) :
    (process_post s text parent_id).1.2.length =
        (extract_mentions text).length ∧
    (process_post s text parent_id).1.2.map (fun r => r.status) =
        List.replicate (extract_mentions text).length AgentStatus.queued ∧
    (process_post s text parent_id).1.2.map (fun r => r.trigger_post_id) =
        List.replicate (extract_mentions text).length
          (process_post s text parent_id).1.1.id ∧
    (process_post s text parent_id).1.2.map (fun r => r.thread_id) =
        List.replicate (extract_mentions text).length
          (process_post s text parent_id).1.1.thread_id ∧
    ((process_post s text parent_id).1.2.map (fun r => r.id)).Nodup := by
  obtain ⟨h1, h2, h3, h4⟩ := process_post_run_facts s text parent_id
  refine ⟨?_, h2, h3, h4, ?_⟩
  · have hlen := congrArg List.length h1
    simpa using hlen
  · rw [h1]
    exact List.nodup_range' _ _ _ Nat.one_pos

/-- C6 counterexample: handle comparison is not case-insensitive.  The
token `Grok` of the post `"@Grok"` equals the configured, enabled handle
`grok` up to ASCII case, yet `extract_mentions` silently drops it, because
`m in AGENTS` is case-sensitive dict-key membership. -/
theorem C6_counterexample :
    "Grok" ∈ mentionTokens "@Grok".data ∧
    lowerStr "Grok" = "grok" ∧
    (AGENTS.lookup "grok").isSome = true ∧
    "Grok" ∉ extract_mentions "@Grok" ∧
    extract_mentions "@Grok" = [] := by
  decide

/-- C6 amended: a token matching `@[A-Za-z0-9_]+` is kept iff it is,
case-sensitively, a key of the agent registry; unmatched tokens are
silently dropped (parsing is total) and contribute no AgentRun, since the
run count equals the kept-mention count. -/
theorem C6_keep_iff_exact_key (text : String) (m : String) :
    (m ∈ extract_mentions text ↔
      m ∈ mentionTokens text.data ∧ (AGENTS.lookup m).isSome) ∧
    ((AGENTS.lookup m) = none → m ∉ extract_mentions text) ∧
    (∀ (s : Sys) (parent_id : Option Nat),
      (process_post s text parent_id).1.2.length =
        (extract_mentions text).length) := by
  refine ⟨?_, ?_, ?_⟩
  · constructor
    · intro h
      exact ⟨List.mem_of_mem_filter h, by simpa using List.of_mem_filter h⟩
    · rintro ⟨h1, h2⟩
      exact List.mem_filter.mpr ⟨h1, by simpa using h2⟩
  · intro hn hmem
    have h2 : (AGENTS.lookup m).isSome := by
      simpa using List.of_mem_filter hmem
    rw [hn] at h2
    simp at h2
  · intro s pid
    have h := process_post_run_facts s text pid
    have hlen := congrArg List.length h.1
    simpa using hlen

theorem C6_keep_iff_exact_key_witness :
    "Nobody" ∉ extract_mentions "hi @Nobody @grok" ∧
    (process_post sysEmpty "hi @Nobody @grok" none).1.2.length =
      (extract_mentions "hi @Nobody @grok").length :=
  ⟨(C6_keep_iff_exact_key "hi @Nobody @grok" "Nobody").2.1 (by decide),
   (C6_keep_iff_exact_key "hi @Nobody @grok" "Nobody").2.2 sysEmpty none⟩

/-- C7 counterexample: not every CSV audit export uses the claimed
thirteen-column order.  `AuditService.export_logs` writes a reduced
seven-column layout
(`timestamp,event_type,user_id,resource_type,resource_id,status,thread_id`)
that omits `id`, `post_id`, `ip_address`, `user_agent`, `details` and
`error_message`. -/
theorem C7_counterexample :
    (export_logs_csv [sampleLog]).head? = some service_csv_header ∧
    service_csv_header ≠ specCsvColumnOrder ∧
    (service_csv_row sampleLog).length = 7 ∧
    specCsvColumnOrder.length = 13 := by
  decide

/-- C7 amended: the admin export endpoint writes CSV in exactly the
claimed thirteen-column order, every row carrying the thirteen fields in
that order, while the service-level `AuditService.export_logs` CSV writes
the reduced seven-column layout. -/
theorem C7_endpoint_vs_service_columns (logs : List AuditLog) :
    export_endpoint_csv logs =
      specCsvColumnOrder :: logs.map endpoint_csv_row ∧
    (∀ row ∈ export_endpoint_csv logs, row.length = 13) ∧
    export_logs_csv logs = service_csv_header :: logs.map service_csv_row ∧
    (∀ row ∈ export_logs_csv logs, row.length = 7) := by
  refine ⟨rfl, ?_, rfl, ?_⟩
  · intro row hr
    rcases List.mem_cons.mp hr with h | h
    · subst h
      rfl
    · obtain ⟨log, _, rfl⟩ := List.mem_map.mp h
      rfl
  · intro row hr
    rcases List.mem_cons.mp hr with h | h
    · subst h
      rfl
    · obtain ⟨log, _, rfl⟩ := List.mem_map.mp h
      rfl

theorem C7_endpoint_vs_service_columns_witness :
    export_endpoint_csv [sampleLog] =
      specCsvColumnOrder :: [sampleLog].map endpoint_csv_row ∧
    (endpoint_csv_row sampleLog).length = 13 :=
  ⟨(C7_endpoint_vs_service_columns [sampleLog]).1,
   (C7_endpoint_vs_service_columns [sampleLog]).2.1 _ (by decide)⟩

theorem C5_generation_failure_contained_witness :
    statusOf (execute_agent sysA runA postA (GenOutcome.ok "")) runA.id =
        some .error ∧
    outputOf (execute_agent sysA runA postA (GenOutcome.ok "")) runA.id =
        some none :=
  ⟨(C5_generation_failure_contained sysA runA postA (GenOutcome.ok "")
      (Agent.mk "grok" "@grok" "Grok") (by decide) (by decide) (by decide)
      (Or.inl rfl)).1,
   (C5_generation_failure_contained sysA runA postA (GenOutcome.ok "")
      (Agent.mk "grok" "@grok" "Grok") (by decide) (by decide) (by decide)
      (Or.inl rfl)).2.1⟩

/- Stream-loop lemmas and claims. -/

/-- Everything the per-post emission loop emits is a `new_post` event. -/
theorem emit_new_posts_shape (new_posts : List Nat) (posts : List Post) :
    ∀ (last : Option Nat) (e : StreamEvent),
      e ∈ (emit_new_posts new_posts posts last).1 →
      ∃ i, e = StreamEvent.new_post i := by
  induction posts with
  | nil =>
      intro last e he
      simp [emit_new_posts] at he
  | cons p rest ih =>
      intro last e he
      by_cases h : p.id ∈ new_posts ∧ last ≠ some p.id
      · simp only [emit_new_posts, if_pos h] at he
        rcases List.mem_cons.mp he with h1 | h1
        · exact ⟨p.id, h1⟩
        · exact ih _ e h1
      · simp only [emit_new_posts, if_neg h] at he
        exact ih _ e he

/-- Everything the post section of an iteration emits is a `new_post`
event. -/
theorem iter_posts_shape (s : Sys) (tid : Nat) (st : StreamState)
    (e : StreamEvent) (he : e ∈ (iter_posts s tid st).1) :
    ∃ i, e = StreamEvent.new_post i := by
  unfold iter_posts at he
  cases hth : get_thread s tid with
  | none =>
      rw [hth] at he
      exact absurd he (List.not_mem_nil e)
  | some thread =>
      rw [hth] at he
      exact emit_new_posts_shape _ _ _ e he

/-- Every `agent_run` event of an iteration reports an id that is active
at this poll. -/
theorem iter_run_events_runId (s : Sys) (tid : Nat) (st : StreamState)
    (e : StreamEvent) (rid : Nat) (he : e ∈ iter_run_events s tid st)
    (hid : e.runId = some rid) :
    ∃ r, r ∈ get_active_agent_runs s tid ∧ r.id = rid := by
  obtain ⟨i, _, hfi⟩ := List.mem_filterMap.mp he
  cases hfind : (get_active_agent_runs s tid).find?
      (fun r => decide (r.id = i)) with
  | none =>
      rw [hfind] at hfi
      cases hfi
  | some run =>
      rw [hfind] at hfi
      injection hfi with hfi
      subst hfi
      simp only [StreamEvent.runId, Option.some.injEq] at hid
      exact ⟨run, List.mem_of_find?_eq_some hfind, hid⟩

/-- Every `agent_status_change` event of an iteration reports an id that
is active at this poll. -/
theorem iter_change_events_runId (s : Sys) (tid : Nat) (st : StreamState)
    (e : StreamEvent) (rid : Nat) (he : e ∈ iter_change_events s tid st)
    (hid : e.runId = some rid) :
    ∃ r, r ∈ get_active_agent_runs s tid ∧ r.id = rid := by
  obtain ⟨run, hrun, hf⟩ := List.mem_filterMap.mp he
  by_cases hseen : run.id ∈ st.seen_runs ++ iter_new_runs s tid st
  · rw [if_pos hseen] at hf
    cases hlatest : findRun s run.id with
    | none =>
        rw [hlatest] at hf
        cases hf
    | some latest =>
        rw [hlatest] at hf
        replace hf : (if latest.status ≠ run.status then
            some (StreamEvent.agent_status_change latest.id latest.status)
          else none) = some e := hf
        by_cases hne : latest.status ≠ run.status
        · rw [if_pos hne] at hf
          injection hf with hf
          subst hf
          have hl : latest.id = run.id := by
            unfold findRun at hlatest
            simpa using List.find?_some hlatest
          simp only [StreamEvent.runId, Option.some.injEq] at hid
          exact ⟨run, hrun, by rw [← hid, hl]⟩
        · rw [if_neg hne] at hf
          cases hf
  · rw [if_neg hseen] at hf
    cases hf

/-- Every run event (new run or status change) an iteration emits reports
a run that is active — `QUEUED` or `RUNNING` — at this poll. -/
theorem stream_iteration_runId (s : Sys) (tid : Nat) (st : StreamState)
    (e : StreamEvent) (rid : Nat)
    (he : e ∈ (stream_iteration s tid st).1)
    (hid : e.runId = some rid) :
    ∃ r, r ∈ get_active_agent_runs s tid ∧ r.id = rid := by
  unfold stream_iteration at he
  simp only [List.mem_append] at he
  cases he with
  | inl he2 =>
      cases he2 with
      | inl he3 =>
          cases he3 with
          | inl h1 => exact iter_run_events_runId s tid st e rid h1 hid
          | inr h2 => exact iter_change_events_runId s tid st e rid h2 hid
      | inr h3 =>
          obtain ⟨i, hi⟩ := iter_posts_shape s tid st e h3
          rw [hi] at hid
          cases hid
  | inr h4 =>
      have h5 := List.mem_singleton.mp h4
      rw [h5] at hid
      cases hid

/-- C8: the stream derives run events only from the runs active at each
poll, so a run whose status is `DONE` or `ERROR` at every poll instant —
in particular one created and finished within one poll interval — never
appears in any `agent_run` or `agent_status_change` event of the trace. -/
theorem C8_finished_runs_invisible (tid rid : Nat) (polls : List Sys)
    (st : StreamState)
    (h : ∀ s ∈ polls, ∀ r ∈ s.agentRuns, r.id = rid →
      r.status = AgentStatus.done ∨ r.status = AgentStatus.error) :
    ∀ evs ∈ stream_trace tid polls st, ∀ e ∈ evs,
      e.runId ≠ some rid := by
  induction polls generalizing st with
  | nil =>
      intro evs hevs
      simp [stream_trace] at hevs
  | cons s rest ih =>
      intro evs hevs e hee hid
      simp only [stream_trace, List.mem_cons] at hevs
      rcases hevs with h1 | h1
      · subst h1
        obtain ⟨r, hr, hrid⟩ := stream_iteration_runId s tid st e rid hee hid
        have hmem : r ∈ s.agentRuns := List.mem_of_mem_filter hr
        have hact := List.of_mem_filter hr
        simp only [decide_eq_true_eq] at hact
        have hterm := h s (List.mem_cons_self s rest) r hmem hrid
        rcases hact.2 with hq | hq <;> rcases hterm with ht | ht <;>
          rw [hq] at ht <;> exact AgentStatus.noConfusion ht
      · exact ih (stream_iteration s tid st).2
          (fun s' hs' => h s' (List.mem_cons_of_mem s hs')) evs h1 e hee hid

theorem C8_finished_runs_invisible_witness :
    (StreamEvent.new_post 100).runId ≠ some 0 :=
  C8_finished_runs_invisible 100 0 [sysDone, sysDone] StreamState.initial
    (by decide) (stream_iteration sysDone 100 StreamState.initial).1
    (by simp [stream_trace]) (StreamEvent.new_post 100) (by decide)

/-- In a table with pairwise-distinct ids, looking a member's id up finds
that member. -/
theorem find?_eq_of_nodup {l : List AgentRun}
    (hnd : (l.map (fun r => r.id)).Nodup) {r : AgentRun} (hr : r ∈ l) :
    l.find? (fun x => decide (x.id = r.id)) = some r := by
  induction l with
  | nil => cases hr
  | cons a as ih =>
      rcases List.mem_cons.mp hr with h | h
      · subst h
        exact List.find?_cons_of_pos _ (by simp)
      · have hnd' := List.nodup_cons.mp hnd
        have hne : ¬ (a.id = r.id) := by
          intro hc
          apply hnd'.1
          show a.id ∈ List.map (fun r => r.id) as
          rw [hc]
          exact List.mem_map_of_mem (fun x => x.id) h
        rw [List.find?_cons_of_neg _ (by simp [hne])]
        exact ih hnd'.2 h

/-- On one store snapshot with pairwise-distinct run ids, the refetched
run always equals the listed run, so the status-change check never fires:
an iteration emits no `agent_status_change` event at all. -/
theorem iter_change_events_nil (s : Sys) (tid : Nat) (st : StreamState)
    (hnd : (s.agentRuns.map (fun r => r.id)).Nodup) :
    iter_change_events s tid st = [] := by
  unfold iter_change_events
  rw [List.filterMap_eq_nil_iff]
  intro run hrun
  by_cases hseen : run.id ∈ st.seen_runs ++ iter_new_runs s tid st
  · rw [if_pos hseen]
    have hrmem : run ∈ s.agentRuns := List.mem_of_mem_filter hrun
    rw [show findRun s run.id = some run from find?_eq_of_nodup hnd hrmem]
    exact if_neg (by simp)
  · exact if_neg hseen

/-- C3 counterexample: the loop does not compare an active run's status
against the status last observed in an earlier iteration.  With a store
holding one `QUEUED` grok run in thread 100, the first poll emits its
`agent_run` event (and the root post's `new_post`); after the run moves to
`RUNNING` through the store's transition operation, the second poll emits
no `agent_status_change` event — only the heartbeat — although a
previously seen run's status changed between the two observations. -/
theorem C3_counterexample :
    (stream_iteration sysA 100 StreamState.initial).1 =
      [StreamEvent.agent_run 0 "@grok" .queued,
       StreamEvent.new_post 100, StreamEvent.heartbeat] ∧
    statusOf sysA 0 = some .queued ∧
    statusOf sysB 0 = some .running ∧
    0 ∈ (stream_iteration sysA 100 StreamState.initial).2.seen_runs ∧
    (stream_iteration sysB 100
        (stream_iteration sysA 100 StreamState.initial).2).1 =
      [StreamEvent.heartbeat] := by
  decide

/-- C3 amended: each iteration still emits one `agent_run` event for every
active run id not previously seen; but the status-change check refetches
the run from the same snapshot it was listed from, so (for a store with
pairwise-distinct run ids) no `agent_status_change` event is ever emitted
— a stream over a single mention yields `agent_run` and `new_post` events
and no `agent_status_change`. -/
theorem C3_no_status_change_events (s : Sys) (tid : Nat)
    (st : StreamState) (rid : Nat) :
    (rid ∈ (get_active_agent_runs s tid).map (fun r => r.id) →
      rid ∉ st.seen_runs →
      ∃ h stat, StreamEvent.agent_run rid h stat ∈
        (stream_iteration s tid st).1) ∧
    ((s.agentRuns.map (fun r => r.id)).Nodup →
      ∀ e ∈ (stream_iteration s tid st).1,
        ∀ i stat, e ≠ StreamEvent.agent_status_change i stat) := by
  constructor
  · intro hmem hseen
    have hnew : rid ∈ iter_new_runs s tid st :=
      List.mem_filter.mpr ⟨hmem, by simpa using hseen⟩
    obtain ⟨run, hrunmem, hridc⟩ := List.mem_map.mp hmem
    have hsome : ((get_active_agent_runs s tid).find?
        (fun r => decide (r.id = rid))).isSome := by
      rw [List.find?_isSome]
      exact ⟨run, hrunmem, by simp [hridc]⟩
    obtain ⟨run', hfind⟩ := Option.isSome_iff_exists.mp hsome
    have hid' : run'.id = rid := by simpa using List.find?_some hfind
    refine ⟨run'.agent_handle, run'.status, ?_⟩
    unfold stream_iteration
    apply List.mem_append_left
    apply List.mem_append_left
    apply List.mem_append_left
    unfold iter_run_events
    refine List.mem_filterMap.mpr ⟨rid, hnew, ?_⟩
    rw [hfind]
    show some (StreamEvent.agent_run run'.id run'.agent_handle
        run'.status) =
      some (StreamEvent.agent_run rid run'.agent_handle run'.status)
    rw [hid']
  · intro hnd e he i stat hcontra
    subst hcontra
    unfold stream_iteration at he
    simp only [List.mem_append] at he
    cases he with
    | inl he2 =>
        cases he2 with
        | inl he3 =>
            cases he3 with
            | inl h1 =>
                obtain ⟨j, _, hfj⟩ := List.mem_filterMap.mp h1
                cases hfind : (get_active_agent_runs s tid).find?
                    (fun r => decide (r.id = j)) with
                | none =>
                    rw [hfind] at hfj
                    cases hfj
                | some run =>
                    rw [hfind] at hfj
                    simp at hfj
            | inr h2 =>
                rw [iter_change_events_nil s tid st hnd] at h2
                exact absurd h2 (List.not_mem_nil _)
        | inr h3 =>
            obtain ⟨ipost, hip⟩ := iter_posts_shape s tid st _ h3
            simp at hip
    | inr h4 =>
        have h5 := List.mem_singleton.mp h4
        cases h5

theorem C3_no_status_change_events_witness :
    (stream_iteration sysA 100 StreamState.initial).1 ≠ [] ∧
    StreamEvent.agent_status_change 0 AgentStatus.running ∉
      (stream_iteration sysB 100
        (StreamState.mk [0] [100] (some 100))).1 :=
  ⟨fun hnil => by
      obtain ⟨h, stat, hm⟩ :=
        (C3_no_status_change_events sysA 100 StreamState.initial 0).1
          (by decide) (by decide)
      rw [hnil] at hm
      exact absurd hm (List.not_mem_nil _),
   fun hmem =>
      (C3_no_status_change_events sysB 100
          (StreamState.mk [0] [100] (some 100)) 0).2 (by decide) _ hmem 0
        AgentStatus.running rfl⟩

end AgentSocial
